import Mathlib

/-!
Verification development for the TiRest key-value proxy: a shallow embedding of
the storage facade (`store/store.go`, package `store`) and of the kafka
durable-queue connector (package `kafka` in the same file), together with
theorems settling the specification claims about them.

Go byte slices are embedded as `List Nat` (each element a byte value), Go's
`(value, error)` multi-returns as products with `Option Err`, and Go interfaces
as structures of function fields.  A Go runtime panic (nil-interface method
call, slice bounds violation) is embedded as `Option.none` of the surrounding
computation.
-/

namespace TiRest

/-- Byte strings: Go `[]byte`. -/
abbrev Bytes := List Nat

/-- Error values.  `notExists` embeds `xerror.ErrNotExists` (used by the facade
both for "backend slot unset" and recognised as the backend's "not found");
`databaseNotExists` embeds `xerror.ErrDatabaseNotExists`; `notRegister` embeds
`xerror.ErrNotRegister`; `other n` stands for any further distinct error value
(backend-specific errors, JSON decode errors, queue errors). -/
inductive Err where
  | notExists
  | databaseNotExists
  | notRegister
  | other : Nat → Err
  deriving DecidableEq, Repr

/-- `store.Value`: a read result (`Secondary bool`, `Value []byte`). -/
structure Value where
  secondary : Bool
  value : Bytes
  deriving DecidableEq, Repr

/-- `store.NoValue`: the zero `Value`. -/
def NoValue : Value := ⟨false, []⟩

/-- `store.Option`: read options (named `ReadOption` here because `Option` is
taken by Lean). -/
structure ReadOption where
  replicaRead : Bool
  keyOnly : Bool
  reverse : Bool
  secondary : Bytes
  deriving DecidableEq, Repr

/-- `store.NoOption`: the zero read option. -/
def NoOption : ReadOption := ⟨false, false, false, []⟩

/-- `store.KeyValue`: one listing row. -/
structure KeyValue where
  key : String
  value : String
  deriving DecidableEq, Repr

/-- `store.KeyEntry`: one write event handed to the replication connector. -/
structure KeyEntry where
  key : Bytes
  entry : Bytes
  deriving DecidableEq, Repr

/-- `store.Log`: the compare-and-put payload (the spec calls it `CasLog`),
decoded from the caller-supplied entry; fields `Old`, `New`. -/
structure Log where
  old : String
  new : String
  deriving DecidableEq, Repr

/-- `store.CheckFunc`: `func(oldVal, newVal, existVal []byte) ([]byte, error)`. -/
abbrev CheckFunc := Bytes → Bytes → Bytes → Bytes × Option Err

/-- `utils.S2B`: the string-to-bytes conversion used when passing the decoded
old/new values to the backend. -/
def s2b (s : String) : Bytes :=
  (s.data.flatMap String.utf8EncodeChar).map (fun b => b.toNat)

/-- The `store.DB` interface, embedded as a structure of function fields.
Each Go method returning `(..., error)` becomes a product with `Option Err`
(`none` = nil error). -/
structure DB where
  close : Option Err
  put : Bytes → Bytes → Option Err
  unsafeDelete : Bytes → Bytes → Option Err
  checkAndPut : Bytes → Bytes → Bytes → CheckFunc → Option Err
  get : Bytes → ReadOption → Value × Option Err
  batchDelete : Bytes → Bytes → Int → Bytes × Int × Option Err
  list : Bytes → Bytes → Int → ReadOption → List KeyValue × Option Err

/-- The `store.Connector` interface: `Close()` returns nothing, so only `Send`
carries data. -/
structure ConnectorIface where
  send : KeyEntry → Option Err

/-- `store.Store`: the facade.  The `db` and `connector` slots are `Option`s
because `Open` populates them asynchronously and leaves them unset on open
failure; configuration and logger fields carry no behaviour and are omitted. -/
structure Store where
  db : Option DB
  connector : Option ConnectorIface

/-- `store.DBDriver`: only the declared name matters to registration. -/
structure DBDriver where
  name : String
  deriving DecidableEq, Repr

/-- `store.ConnectorDriver`: only the declared name matters to registration. -/
structure ConnectorDriver where
  name : String
  deriving DecidableEq, Repr

/-- `store.RegisterDB`: the registry map `dDrivers` is embedded as an
association list; the Go `panic` on a duplicate name is embedded as
`Except.error` carrying the panic message (a fatal error, the process must not
continue). -/
def RegisterDB (ds : List (String × DBDriver)) (driver : DBDriver) :
    Except String (List (String × DBDriver)) :=
  if (ds.lookup driver.name).isSome then
    Except.error ("store " ++ driver.name ++ " is already registered")
  else
    Except.ok ((driver.name, driver) :: ds)

/-- `store.RegisterConnector`: same shape over the `cDrivers` table. -/
def RegisterConnector (cs : List (String × ConnectorDriver)) (driver : ConnectorDriver) :
    Except String (List (String × ConnectorDriver)) :=
  if (cs.lookup driver.name).isSome then
    Except.error ("store " ++ driver.name ++ " is already registered")
  else
    Except.ok ((driver.name, driver) :: cs)

/-- `Store.Health`: `ErrDatabaseNotExists` when the backend slot is unset. -/
def Store.health (s : Store) : Option Err :=
  match s.db with
  | none => some Err.databaseNotExists
  | some _ => none

/-- `Store.Get`: `ErrNotExists` when the backend slot is unset; a backend error
other than `ErrNotExists` is returned with `NoValue`; otherwise the backend's
value is returned with nil error (the `ErrNotExists` from the backend is
swallowed). -/
def Store.get (s : Store) (key : Bytes) (opt : ReadOption) : Value × Option Err :=
  match s.db with
  | none => (NoValue, some Err.notExists)
  | some db =>
    let r := db.get key opt
    if r.2 ≠ none ∧ r.2 ≠ some Err.notExists then (NoValue, r.2)
    else (r.1, none)

/-- `Store.CheckAndPut`.  `decode` stands for `json.Unmarshal` into a `Log`
(the json package of this repository is not part of the embedded sources, so
the decoder is a parameter).  The second component of the result is the list of
`Send` invocations made on the connector (the source makes at most one, on the
success path, and discards its error). -/
def Store.checkAndPut (s : Store) (decode : Bytes → Except Err Log)
    (key entry : Bytes) (check : CheckFunc) : Option Err × List KeyEntry :=
  match s.db with
  | none => (some Err.notExists, [])
  | some db =>
    if entry.length = 0 then (some Err.notExists, [])
    else
      match decode entry with
      | Except.error e => (some e, [])
      | Except.ok l =>
        match db.checkAndPut key (s2b l.old) (s2b l.new) check with
        | some e => (some e, [])
        | none =>
          if entry ≠ [] ∧ s.connector.isSome then (none, [⟨key, entry⟩])
          else (none, [])

/-- `Store.List`: `ErrNotExists` when the backend slot is unset; on a backend
error the source returns `nil, err`. -/
def Store.list (s : Store) (start stop : Bytes) (limit : Int) (opt : ReadOption) :
    List KeyValue × Option Err :=
  match s.db with
  | none => ([], some Err.notExists)
  | some db =>
    let r := db.list start stop limit opt
    match r.2 with
    | some e => ([], some e)
    | none => (r.1, none)

/-- `Store.BatchDelete`: `ErrNotExists` when the backend slot is unset;
otherwise the backend's `(lastKey, deleted, err)` triple is returned as-is
(the source returns the same triple on both the error and the success path). -/
def Store.batchDelete (s : Store) (start stop : Bytes) (limit : Int) :
    Bytes × Int × Option Err :=
  match s.db with
  | none => ([], 0, some Err.notExists)
  | some db => db.batchDelete start stop limit

/-- `Store.UnsafeDelete`: the source calls `s.db.UnsafeDelete` without checking
the slot; a method call on a nil Go interface panics, embedded as `none`.  With
the slot set the backend error is only logged and the call completes. -/
def Store.unsafeDelete (s : Store) (start stop : Bytes) : Option Unit :=
  match s.db with
  | none => none
  | some db =>
    let _err := db.unsafeDelete start stop
    some ()

/-- The observable steps of `Store.Close`, in order. -/
inductive CloseAction where
  | closeConnector
  | closeDB
  deriving DecidableEq, Repr

/-- `Store.Close`: close the connector when its slot is set (its interface
`Close()` returns nothing, so no connector error can reach the caller), then
close the backend when its slot is set, returning the backend's close error;
with the backend slot unset the result is nil.  The first component is the
ordered trace of close steps taken. -/
def Store.close (s : Store) : List CloseAction × Option Err :=
  let t : List CloseAction :=
    match s.connector with
    | some _ => [CloseAction.closeConnector]
    | none => []
  match s.db with
  | some db => (t ++ [CloseAction.closeDB], db.close)
  | none => (t, none)

/-- Modelled from the spec: the concrete storage backend is an external
collaborator ("the concrete storage backend implementation ... beyond its
required interface" is out of scope).  `refDB current accepts e` is a backend
over the `store.DB` interface whose compare-and-put succeeds exactly when the
compare predicate `accepts` — given the key, the old and new values, the check
function and the current stored value `current key` — accepts, and fails with
the fixed error `e` otherwise. -/
def refDB (current : Bytes → Option Bytes)
    (accepts : Bytes → Bytes → Bytes → CheckFunc → Option Bytes → Bool)
    (e : Err) : DB where
  close := none
  put := fun _ _ => none
  unsafeDelete := fun _ _ => none
  checkAndPut := fun key old new check =>
    if accepts key old new check (current key) then none else some e
  get := fun _ _ => (NoValue, none)
  batchDelete := fun _ _ _ => ([], 0, none)
  list := fun _ _ _ _ => ([], none)

/-- A backend differing from `refDB` only in its read behaviour: `get` returns
the given function's result.  Used to instantiate theorems at concrete
backends. -/
def constGetDB (g : Bytes → ReadOption → Value × Option Err) : DB :=
  { refDB (fun _ => none) (fun _ _ _ _ _ => true) Err.notExists with get := g }

/-! The kafka durable-queue connector (package `kafka`). -/

namespace Kafka

/-- `kafka.MaxMessage`: the capacity of the connector's intake channel
`writeChan`. -/
def MaxMessage : Nat := 1024

/-- The four bytes written by `binary.Write(&buf, binary.BigEndian, keyLen)`
for a `uint32` value: big-endian, most significant byte first. -/
def putUint32BE (n : Nat) : Bytes :=
  [n / 2 ^ 24 % 256, n / 2 ^ 16 % 256, n / 2 ^ 8 % 256, n % 256]

/-- `binary.BigEndian.Uint32` applied to a (four-byte) slice. -/
def readUint32BE : Bytes → Nat
  | a :: b :: c :: d :: _ => a * 2 ^ 24 + b * 2 ^ 16 + c * 2 ^ 8 + d
  | _ => 0

/-- The record bytes built by `Connector.putQueue` and handed to
`queue.Put`: the key length as a `uint32` (Go's `uint32(len(msg.Key))`
truncates modulo `2 ^ 32`) in big-endian, then the key bytes, then the entry
bytes. -/
def putQueueEncode (msg : KeyEntry) : Bytes :=
  let keyLen := msg.key.length % 2 ^ 32
  putUint32BE keyLen ++ msg.key ++ msg.entry

/-- Go slice expression `s[a:b]`: defined only when `a ≤ b ≤ len(s)` (the
bytes delivered by the durable queue are freshly allocated, so capacity equals
length); outside those bounds the expression panics, embedded as `none`. -/
def goSlice (s : Bytes) (a b : Nat) : Option Bytes :=
  if a ≤ b ∧ b ≤ s.length then some ((s.drop a).take (b - a)) else none

/-- The record decode performed by `Connector.runProducer` on a body received
from `queue.ReadChan()`: `keyLen := binary.BigEndian.Uint32(body[:4])`, key
`body[4 : keyLen+4]`, value `body[keyLen+4:]`.  The source performs no bounds
checking, so a body shorter than 4 bytes, or one whose declared key length
exceeds the remaining length, makes a slice expression panic (`none`); the
panic is unrecovered and terminates the task. -/
def runProducerDecode (body : Bytes) : Option KeyEntry := do
  let hdr ← goSlice body 0 4
  let keyLen := readUint32BE hdr
  let key ← goSlice body 4 (keyLen + 4)
  let val ← goSlice body (keyLen + 4) body.length
  some ⟨key, val⟩

/-- A send on a Go buffered channel with capacity `MaxMessage`: it is accepted
without blocking exactly when the buffer has a free slot; on a full buffer the
sender blocks (`none`). -/
def chanSend (buf : List KeyEntry) (msg : KeyEntry) : Option (List KeyEntry) :=
  if buf.length < MaxMessage then some (buf ++ [msg]) else none

/-- `Connector.Send`: `c.writeChan <- msg; return nil` — a synchronous send on
the bounded intake.  The result is the new intake state paired with the nil
error when the send is accepted without blocking, and `none` while the caller
is blocked on a full intake. -/
def connectorSendStep (buf : List KeyEntry) (msg : KeyEntry) :
    Option (List KeyEntry × Option Err) :=
  (chanSend buf msg).map (fun b => (b, none))

/-- `Store.CheckAndPut` with the kafka connector in the connector slot and the
connector's intake state `buf` threaded through: the `Send` on the success
path (line 194 of the source) is `connectorSendStep`, invoked synchronously —
there is no `go` statement around it.  The result is `none` while the call has
not returned (the caller is blocked inside `Send`), and otherwise the facade's
error result paired with the new intake state. -/
def checkAndPutStep (db : DB) (decode : Bytes → Except Err Log)
    (buf : List KeyEntry) (key entry : Bytes) (check : CheckFunc) :
    Option (Option Err × List KeyEntry) :=
  if entry.length = 0 then some (some Err.notExists, buf)
  else
    match decode entry with
    | Except.error e => some (some e, buf)
    | Except.ok l =>
      match db.checkAndPut key (s2b l.old) (s2b l.new) check with
      | some e => some (some e, buf)
      | none => (connectorSendStep buf ⟨key, entry⟩).map (fun r => (none, r.1))

/-- The environment of one `Connector.runQueue` iteration: whether the remote
producer is enabled (`conf.Connector.EnableProducer`), the result of the
durable-queue append (`putQueue`, whose failure for a given event is decided by
the external diskqueue), and whether the remote producer's input sink accepts
the fallback send before the per-event write timeout elapses. -/
structure QueueEnv where
  enableProducer : Bool
  queuePut : KeyEntry → Option Err
  producerAccepts : KeyEntry → Bool

/-- The fate of one event in the intake-to-durable-queue task. -/
inductive EventOutcome where
  | queued
  | droppedDisabled
  | fallbackSent
  | droppedTimeout
  deriving DecidableEq, Repr

/-- One iteration of the `Connector.runQueue` loop on one received event:
append to the durable queue; on append failure, if the producer is disabled the
event is dropped (logged) and the loop continues; if enabled, one direct send
to the producer's input is raced against the (freshly reset) write-timeout
timer — acceptance in time forwards the event, timeout drops it with one log
line. -/
def runQueueStep (env : QueueEnv) (msg : KeyEntry) : EventOutcome :=
  match env.queuePut msg with
  | none => EventOutcome.queued
  | some _ =>
    if !env.enableProducer then EventOutcome.droppedDisabled
    else if env.producerAccepts msg then EventOutcome.fallbackSent
    else EventOutcome.droppedTimeout

/-- How many direct sends to the producer's input an outcome involved. -/
def fallbackAttempts : EventOutcome → Nat
  | EventOutcome.fallbackSent => 1
  | EventOutcome.droppedTimeout => 1
  | _ => 0

/-- How many "put kafka timeout" drop log lines an outcome produced. -/
def timeoutDropLogs : EventOutcome → Nat
  | EventOutcome.droppedTimeout => 1
  | _ => 0

/-- The `runQueue` loop over a stream of received events: every event gets its
own iteration, independent of the previous events' outcomes (each iteration
terminates, so the task continues with the next event). -/
def runQueueAll (env : QueueEnv) (msgs : List KeyEntry) : List EventOutcome :=
  msgs.map (runQueueStep env)

/-- Two's-complement wrap-around of Go's 64-bit signed arithmetic
(`time.Duration` is an `int64`). -/
def wrap64 (x : Int) : Int := (x + 2 ^ 63) % 2 ^ 64 - 2 ^ 63

/-- The linearly-scaled, capped backoff value computed (into the local `b`) by
the backoff closure in `Driver.Open`: the base backoff duration times
`retries+1`, capped at the configured maximum backoff. -/
def backoffLinear (base maxBackOff retries : Int) : Int :=
  let b := wrap64 (base * wrap64 (retries + 1))
  if b > maxBackOff then maxBackOff else b

/-- The backoff closure installed on `c.Metadata.Retry.BackoffFunc` and
`c.Producer.Retry.BackoffFunc` in `Driver.Open`: it computes the
linearly-scaled value into `b` but then returns
`conf.Connector.MaxBackOff.Duration` unconditionally; `maxRetries` is unused. -/
def backoff (base maxBackOff retries maxRetries : Int) : Int :=
  let _b := backoffLinear base maxBackOff retries
  let _ := maxRetries
  maxBackOff

end Kafka

/-! Theorems. -/

theorem putUint32BE_length (n : Nat) : (Kafka.putUint32BE n).length = 4 := rfl

theorem readUint32BE_putUint32BE (n : Nat) (h : n < 2 ^ 32) :
    Kafka.readUint32BE (Kafka.putUint32BE n) = n := by
  simp only [Kafka.putUint32BE, Kafka.readUint32BE]
  omega

/-- C7: the backoff function configured on the remote producer's metadata and
producer retry policies returns the configured maximum backoff unconditionally;
its result equals the linearly-scaled capped value it computes only when that
value already equals the maximum. -/
theorem backoff_returns_max_unconditionally (base maxBackOff retries maxRetries : Int) :
    Kafka.backoff base maxBackOff retries maxRetries = maxBackOff ∧
    (Kafka.backoff base maxBackOff retries maxRetries
        = Kafka.backoffLinear base maxBackOff retries ↔
      Kafka.backoffLinear base maxBackOff retries = maxBackOff) := by
  refine ⟨rfl, ?_⟩
  simp only [Kafka.backoff]
  exact eq_comm

/-- C2 (amended): encoding a `KeyEntry` for the durable queue produces
`[4-byte big-endian key-length][key][entry]` and decoding recovers the original
key and entry for every key shorter than `2 ^ 32` bytes (Go's
`uint32(len(msg.Key))` truncates longer keys); in particular the
`{key:"k1", entry:"v1"}` example encodes to `00 00 00 02 6b 31 76 31` and
decodes back. -/
theorem putQueue_runProducer_roundtrip (ke : KeyEntry) (h : ke.key.length < 2 ^ 32) :
    Kafka.runProducerDecode (Kafka.putQueueEncode ke) = some ke ∧
    Kafka.putQueueEncode ⟨[107, 49], [118, 49]⟩ = [0, 0, 0, 2, 107, 49, 118, 49] ∧
    Kafka.runProducerDecode [0, 0, 0, 2, 107, 49, 118, 49] = some ⟨[107, 49], [118, 49]⟩ := by
  refine ⟨?_, by decide, by decide⟩
  obtain ⟨key, entry⟩ := ke
  have h : key.length < 2 ^ 32 := h
  have hmod : key.length % 4294967296 = key.length := Nat.mod_eq_of_lt (by omega)
  have hlen4 : (Kafka.putUint32BE key.length).length = 4 := rfl
  have hbody : Kafka.putQueueEncode ⟨key, entry⟩
      = Kafka.putUint32BE key.length ++ (key ++ entry) := by
    simp [Kafka.putQueueEncode, hmod]
  have hlen : (Kafka.putQueueEncode ⟨key, entry⟩).length
      = 4 + (key.length + entry.length) := by
    rw [hbody]
    simp [hlen4]
  have h1 : Kafka.goSlice (Kafka.putQueueEncode ⟨key, entry⟩) 0 4
      = some (Kafka.putUint32BE key.length) := by
    rw [Kafka.goSlice, if_pos ⟨by omega, by omega⟩]
    rw [hbody, List.drop_zero]
    norm_num
    exact List.take_left' hlen4
  have h2 : Kafka.goSlice (Kafka.putQueueEncode ⟨key, entry⟩) 4 (key.length + 4)
      = some key := by
    rw [Kafka.goSlice, if_pos ⟨by omega, by omega⟩]
    rw [hbody, List.drop_left' hlen4]
    have : key.length + 4 - 4 = key.length := by omega
    rw [this, List.take_left]
  have h3 : Kafka.goSlice (Kafka.putQueueEncode ⟨key, entry⟩) (key.length + 4)
      (Kafka.putQueueEncode ⟨key, entry⟩).length = some entry := by
    rw [Kafka.goSlice, if_pos ⟨by omega, by omega⟩]
    have hl : (Kafka.putUint32BE key.length ++ key).length = key.length + 4 := by
      simp only [List.length_append, hlen4]
      omega
    rw [hlen]
    have hb : 4 + (key.length + entry.length) - (key.length + 4) = entry.length := by
      omega
    rw [hb, hbody, ← List.append_assoc, List.drop_left' hl, List.take_length]
  simp [Kafka.runProducerDecode, h1, h2, h3, readUint32BE_putUint32BE _ h]

theorem putQueue_runProducer_roundtrip_witness :
    Kafka.runProducerDecode (Kafka.putQueueEncode ⟨[107, 49], [118, 49]⟩)
        = some ⟨[107, 49], [118, 49]⟩ ∧
    Kafka.putQueueEncode ⟨[107, 49], [118, 49]⟩ = [0, 0, 0, 2, 107, 49, 118, 49] ∧
    Kafka.runProducerDecode [0, 0, 0, 2, 107, 49, 118, 49]
        = some ⟨[107, 49], [118, 49]⟩ :=
  putQueue_runProducer_roundtrip ⟨[107, 49], [118, 49]⟩ (by decide)

/-- Record decode of an encoded entry whose key is exactly `2 ^ 32` bytes long:
the encoded key length truncates to zero, so decode returns an empty key and
puts the whole key into the value. -/
theorem putQueue_decode_at_trunc_key (key : Bytes) (hk : key.length = 2 ^ 32) :
    Kafka.runProducerDecode (Kafka.putQueueEncode ⟨key, []⟩) = some ⟨[], key⟩ := by
  have hmod : key.length % 4294967296 = 0 := by
    rw [hk]
    norm_num
  have hlen4 : (Kafka.putUint32BE 0).length = 4 := rfl
  have hbody : Kafka.putQueueEncode ⟨key, []⟩ = Kafka.putUint32BE 0 ++ key := by
    simp [Kafka.putQueueEncode, hmod]
  have hlen : (Kafka.putQueueEncode ⟨key, []⟩).length = 4 + 2 ^ 32 := by
    rw [hbody]
    simp only [List.length_append, hlen4, hk]
  have h1 : Kafka.goSlice (Kafka.putQueueEncode ⟨key, []⟩) 0 4
      = some (Kafka.putUint32BE 0) := by
    rw [Kafka.goSlice, if_pos ⟨by omega, by omega⟩, hbody, List.drop_zero]
    simp only [Nat.sub_zero, List.take_left' hlen4]
  have h0 : Kafka.readUint32BE (Kafka.putUint32BE 0) = 0 := rfl
  have h2 : Kafka.goSlice (Kafka.putQueueEncode ⟨key, []⟩) 4 4 = some [] := by
    rw [Kafka.goSlice, if_pos ⟨by omega, by omega⟩]
    simp only [Nat.sub_self, List.take_zero]
  have h3 : Kafka.goSlice (Kafka.putQueueEncode ⟨key, []⟩) 4
      (Kafka.putQueueEncode ⟨key, []⟩).length = some key := by
    rw [Kafka.goSlice, if_pos ⟨by omega, by omega⟩, hlen]
    have hb : 4 + 2 ^ 32 - 4 = key.length := by
      rw [hk]
      norm_num
    rw [hb, hbody, List.drop_left' hlen4, List.take_length]
  simp [Kafka.runProducerDecode, h1, h0, h2, h3]

/-- C2 counterexample: for a key of length `2 ^ 32` the encoded key length
truncates to zero, so decode does not recover the original key and entry. -/
theorem putQueue_roundtrip_fails_at_huge_key :
    Kafka.runProducerDecode
        (Kafka.putQueueEncode ⟨List.replicate (2 ^ 32) 0, []⟩)
      ≠ some ⟨List.replicate (2 ^ 32) 0, []⟩ := by
  have hk : (List.replicate (2 ^ 32) (0 : Nat)).length = 2 ^ 32 := by
    rw [List.length_replicate]
  rw [putQueue_decode_at_trunc_key _ hk]
  intro hEq
  simp only [Option.some.injEq, KeyEntry.mk.injEq] at hEq
  have hc := congrArg List.length hEq.1
  rw [hk] at hc
  simp only [List.length_nil] at hc
  exact absurd hc (by norm_num)

/-- C1: with the backend slot set (to a backend whose compare predicate
`accepts` judges the current stored value `current key`), the connector slot
set, and a non-empty entry that decodes as a `Log`, `CheckAndPut` hands the
key, the decoded old and new values, and the check function to the backend
compare-and-put and succeeds exactly when the predicate accepts the current
stored value; on success exactly one replication `Send` is invoked, carrying
the key and the unchanged raw entry bytes. -/
theorem checkAndPut_backend_iff_send_once
    (current : Bytes → Option Bytes)
    (accepts : Bytes → Bytes → Bytes → CheckFunc → Option Bytes → Bool)
    (e : Err) (conn : ConnectorIface) (decode : Bytes → Except Err Log)
    (key entry : Bytes) (check : CheckFunc) (l : Log)
    (hdec : decode entry = Except.ok l) (hne : entry ≠ []) :
    ((Store.checkAndPut ⟨some (refDB current accepts e), some conn⟩
          decode key entry check).1 = none ↔
      accepts key (s2b l.old) (s2b l.new) check (current key) = true) ∧
    (accepts key (s2b l.old) (s2b l.new) check (current key) = true →
      (Store.checkAndPut ⟨some (refDB current accepts e), some conn⟩
          decode key entry check).2 = [⟨key, entry⟩]) := by
  have hlen : entry.length ≠ 0 := fun h0 => hne (List.length_eq_zero.mp h0)
  by_cases hacc : accepts key (s2b l.old) (s2b l.new) check (current key) = true
  · simp [Store.checkAndPut, refDB, hdec, hlen, hne, hacc]
  · simp [Store.checkAndPut, refDB, hdec, hlen, hne, hacc]

theorem checkAndPut_backend_iff_send_once_witness :
    ((Store.checkAndPut
          ⟨some (refDB (fun _ => some [97]) (fun _ _ _ _ cur => cur.isSome) (Err.other 0)),
            some ⟨fun _ => none⟩⟩
          (fun _ => Except.ok ⟨"a", "b"⟩) [107] [1, 2] (fun _ _ ex => (ex, none))).1 = none ↔
      (fun _ _ _ _ cur => cur.isSome : Bytes → Bytes → Bytes → CheckFunc → Option Bytes → Bool)
          [107] (s2b "a") (s2b "b") (fun _ _ ex => (ex, none)) ((fun _ => some [97]) [107])
        = true) ∧
    ((fun _ _ _ _ cur => cur.isSome : Bytes → Bytes → Bytes → CheckFunc → Option Bytes → Bool)
          [107] (s2b "a") (s2b "b") (fun _ _ ex => (ex, none)) ((fun _ => some [97]) [107])
        = true →
      (Store.checkAndPut
          ⟨some (refDB (fun _ => some [97]) (fun _ _ _ _ cur => cur.isSome) (Err.other 0)),
            some ⟨fun _ => none⟩⟩
          (fun _ => Except.ok ⟨"a", "b"⟩) [107] [1, 2] (fun _ _ ex => (ex, none))).2
        = [⟨[107], [1, 2]⟩]) :=
  checkAndPut_backend_iff_send_once (fun _ => some [97]) (fun _ _ _ _ cur => cur.isSome)
    (Err.other 0) ⟨fun _ => none⟩ (fun _ => Except.ok ⟨"a", "b"⟩) [107] [1, 2]
    (fun _ _ ex => (ex, none)) ⟨"a", "b"⟩ rfl (by decide)

/-- C4: `Get` fails with the not-available error (`xerror.ErrNotExists`) when
the backend slot is unset; a backend-reported not-found yields an empty value
and nil error; any other backend error is returned unchanged together with an
empty value. -/
theorem get_masks_not_found (db : DB) (conn : Option ConnectorIface)
    (key : Bytes) (opt : ReadOption) (v : Value) (e : Err) :
    (Store.get ⟨none, conn⟩ key opt = (NoValue, some Err.notExists)) ∧
    (db.get key opt = (NoValue, some Err.notExists) →
      Store.get ⟨some db, conn⟩ key opt = (NoValue, none)) ∧
    (db.get key opt = (v, some e) → e ≠ Err.notExists →
      Store.get ⟨some db, conn⟩ key opt = (NoValue, some e)) := by
  refine ⟨rfl, ?_, ?_⟩
  · intro hget
    simp [Store.get, hget]
  · intro hget hne
    simp [Store.get, hget, hne]

theorem get_masks_not_found_witness :
    (Store.get ⟨none, none⟩ [1] NoOption = (NoValue, some Err.notExists)) ∧
    (Store.get ⟨some (constGetDB (fun _ _ => (NoValue, some Err.notExists))), none⟩
        [1] NoOption = (NoValue, none)) ∧
    (Store.get ⟨some (constGetDB (fun _ _ => (NoValue, some (Err.other 7)))), none⟩
        [1] NoOption = (NoValue, some (Err.other 7))) :=
  ⟨(get_masks_not_found (constGetDB (fun _ _ => (NoValue, some Err.notExists)))
      none [1] NoOption NoValue (Err.other 7)).1,
   (get_masks_not_found (constGetDB (fun _ _ => (NoValue, some Err.notExists)))
      none [1] NoOption NoValue (Err.other 7)).2.1 rfl,
   (get_masks_not_found (constGetDB (fun _ _ => (NoValue, some (Err.other 7))))
      none [1] NoOption NoValue (Err.other 7)).2.2 rfl (by decide)⟩

set_option maxRecDepth 8000 in
/-- C3 counterexample: with the connector intake full (1024 pending events), a
`CheckAndPut` whose backend compare-and-put succeeded does not return — the
synchronous `Send` blocks on the full intake instead of handing the event over
asynchronously. -/
theorem checkAndPut_blocks_on_full_intake :
    Kafka.checkAndPutStep
        (refDB (fun _ => none) (fun _ _ _ _ _ => true) (Err.other 0))
        (fun _ => Except.ok ⟨"", ""⟩)
        (List.replicate 1024 ⟨[], []⟩) [0] [1] (fun _ _ ex => (ex, none))
      = none := by
  decide

/-- C3 (amended): once the backend compare-and-put has succeeded, `CheckAndPut`
hands the event to the connector through a synchronous `Send` on the bounded
intake — no separate task is spawned: when the intake has a free slot the call
returns success at once with the event appended, but when the intake is full
the call blocks (does not return) until a slot frees, so the success path is
not unconditionally non-blocking. -/
theorem checkAndPut_send_sync_blocking
    (current : Bytes → Option Bytes)
    (accepts : Bytes → Bytes → Bytes → CheckFunc → Option Bytes → Bool)
    (e : Err) (decode : Bytes → Except Err Log)
    (key entry : Bytes) (check : CheckFunc) (l : Log) (buf : List KeyEntry)
    (hdec : decode entry = Except.ok l) (hne : entry ≠ [])
    (hacc : accepts key (s2b l.old) (s2b l.new) check (current key) = true) :
    (buf.length < Kafka.MaxMessage →
      Kafka.checkAndPutStep (refDB current accepts e) decode buf key entry check
        = some (none, buf ++ [⟨key, entry⟩])) ∧
    (Kafka.MaxMessage ≤ buf.length →
      Kafka.checkAndPutStep (refDB current accepts e) decode buf key entry check
        = none) := by
  have hlen : entry.length ≠ 0 := fun h0 => hne (List.length_eq_zero.mp h0)
  constructor
  · intro hfree
    simp [Kafka.checkAndPutStep, refDB, hdec, hlen, hacc,
      Kafka.connectorSendStep, Kafka.chanSend, hfree]
  · intro hfull
    have hnot : ¬ buf.length < Kafka.MaxMessage := by omega
    simp [Kafka.checkAndPutStep, refDB, hdec, hlen, hacc,
      Kafka.connectorSendStep, Kafka.chanSend, hnot]

theorem checkAndPut_send_sync_blocking_witness :
    (([] : List KeyEntry).length < Kafka.MaxMessage →
      Kafka.checkAndPutStep
          (refDB (fun _ => none) (fun _ _ _ _ _ => true) (Err.other 0))
          (fun _ => Except.ok ⟨"", ""⟩) [] [0] [1] (fun _ _ ex => (ex, none))
        = some (none, [] ++ [⟨[0], [1]⟩])) ∧
    (Kafka.MaxMessage ≤ ([] : List KeyEntry).length →
      Kafka.checkAndPutStep
          (refDB (fun _ => none) (fun _ _ _ _ _ => true) (Err.other 0))
          (fun _ => Except.ok ⟨"", ""⟩) [] [0] [1] (fun _ _ ex => (ex, none))
        = none) :=
  checkAndPut_send_sync_blocking (fun _ => none) (fun _ _ _ _ _ => true) (Err.other 0)
    (fun _ => Except.ok ⟨"", ""⟩) [0] [1] (fun _ _ ex => (ex, none)) ⟨"", ""⟩ []
    rfl (by decide) rfl

/-- C5: when the durable-queue append fails for an event in the
intake-to-durable-queue task: with remote publishing disabled the event is
dropped and no direct send is attempted; with it enabled exactly one direct
send to the producer's input, bounded by the per-event write timeout, is
attempted, and on timeout the event is dropped with exactly one log line; in
every case the loop's iteration terminates and the task continues with each
subsequent event. -/
theorem runQueue_append_failure_fallback (env : Kafka.QueueEnv) (msg : KeyEntry)
    (e : Err) (msgs : List KeyEntry) (hfail : env.queuePut msg = some e) :
    (env.enableProducer = false →
      Kafka.runQueueStep env msg = Kafka.EventOutcome.droppedDisabled ∧
      Kafka.fallbackAttempts (Kafka.runQueueStep env msg) = 0) ∧
    (env.enableProducer = true →
      Kafka.fallbackAttempts (Kafka.runQueueStep env msg) = 1 ∧
      (env.producerAccepts msg = false →
        Kafka.runQueueStep env msg = Kafka.EventOutcome.droppedTimeout ∧
        Kafka.timeoutDropLogs (Kafka.runQueueStep env msg) = 1)) ∧
    Kafka.runQueueAll env (msg :: msgs)
      = Kafka.runQueueStep env msg :: Kafka.runQueueAll env msgs := by
  refine ⟨?_, ?_, rfl⟩
  · intro hdis
    simp [Kafka.runQueueStep, hfail, hdis, Kafka.fallbackAttempts]
  · intro hen
    by_cases hacc : env.producerAccepts msg = true
    · simp [Kafka.runQueueStep, hfail, hen, hacc, Kafka.fallbackAttempts,
        Kafka.timeoutDropLogs]
    · rw [Bool.not_eq_true] at hacc
      simp [Kafka.runQueueStep, hfail, hen, hacc, Kafka.fallbackAttempts,
        Kafka.timeoutDropLogs]

theorem runQueue_append_failure_fallback_witness :
    ((Kafka.QueueEnv.mk false (fun _ => some (Err.other 1)) (fun _ => false)).enableProducer
        = false →
      Kafka.runQueueStep (Kafka.QueueEnv.mk false (fun _ => some (Err.other 1)) (fun _ => false))
          ⟨[1], [2]⟩ = Kafka.EventOutcome.droppedDisabled ∧
      Kafka.fallbackAttempts
          (Kafka.runQueueStep
            (Kafka.QueueEnv.mk false (fun _ => some (Err.other 1)) (fun _ => false)) ⟨[1], [2]⟩)
        = 0) ∧
    (Kafka.runQueueStep (Kafka.QueueEnv.mk true (fun _ => some (Err.other 1)) (fun _ => false))
        ⟨[1], [2]⟩ = Kafka.EventOutcome.droppedTimeout ∧
      Kafka.timeoutDropLogs
          (Kafka.runQueueStep
            (Kafka.QueueEnv.mk true (fun _ => some (Err.other 1)) (fun _ => false)) ⟨[1], [2]⟩)
        = 1) ∧
    Kafka.runQueueAll (Kafka.QueueEnv.mk true (fun _ => some (Err.other 1)) (fun _ => false))
        [⟨[1], [2]⟩, ⟨[3], [4]⟩]
      = [Kafka.EventOutcome.droppedTimeout, Kafka.EventOutcome.droppedTimeout] :=
  ⟨(runQueue_append_failure_fallback
      (Kafka.QueueEnv.mk false (fun _ => some (Err.other 1)) (fun _ => false))
      ⟨[1], [2]⟩ (Err.other 1) [] rfl).1,
   ((runQueue_append_failure_fallback
      (Kafka.QueueEnv.mk true (fun _ => some (Err.other 1)) (fun _ => false))
      ⟨[1], [2]⟩ (Err.other 1) [] rfl).2.1 rfl).2 rfl,
   by decide⟩

/-- C6 (evaluation of the code at the failing inputs): a record delivered by
the durable queue's read stream that is shorter than 4 bytes, or whose declared
key length exceeds the remaining record length, makes the forwarding task's
decode hit an out-of-bounds slice expression — an unrecovered panic (`none`)
that terminates the task, rather than a per-record failure after which the task
would continue. -/
theorem runProducer_corrupt_record_panics :
    Kafka.runProducerDecode [0, 0] = none ∧
    Kafka.runProducerDecode [0, 0, 0, 5, 97] = none := by
  decide

/-- C8: registering a backend or connector driver under an already-present
name fails with the fatal registration panic (never overwriting the existing
entry), while registering under a fresh name succeeds and adds exactly that
one entry: the new name maps to the new driver, every other name's lookup is
unchanged, and the table grows by one. -/
theorem register_duplicate_fatal (ds : List (String × DBDriver)) (d : DBDriver)
    (cs : List (String × ConnectorDriver)) (c : ConnectorDriver) :
    ((ds.lookup d.name).isSome = true →
      RegisterDB ds d
        = Except.error ("store " ++ d.name ++ " is already registered")) ∧
    (ds.lookup d.name = none →
      RegisterDB ds d = Except.ok ((d.name, d) :: ds) ∧
      ((d.name, d) :: ds).lookup d.name = some d ∧
      (∀ n, n ≠ d.name → ((d.name, d) :: ds).lookup n = ds.lookup n) ∧
      ((d.name, d) :: ds).length = ds.length + 1) ∧
    ((cs.lookup c.name).isSome = true →
      RegisterConnector cs c
        = Except.error ("store " ++ c.name ++ " is already registered")) ∧
    (cs.lookup c.name = none →
      RegisterConnector cs c = Except.ok ((c.name, c) :: cs) ∧
      ((c.name, c) :: cs).lookup c.name = some c ∧
      (∀ n, n ≠ c.name → ((c.name, c) :: cs).lookup n = cs.lookup n) ∧
      ((c.name, c) :: cs).length = cs.length + 1) := by
  refine ⟨?_, ?_, ?_, ?_⟩
  · intro hdup
    simp [RegisterDB, hdup]
  · intro hfresh
    refine ⟨by simp [RegisterDB, hfresh], by simp [List.lookup], ?_, by simp⟩
    intro n hn
    have hb : (n == d.name) = false := beq_eq_false_iff_ne.mpr hn
    simp [List.lookup, hb]
  · intro hdup
    simp [RegisterConnector, hdup]
  · intro hfresh
    refine ⟨by simp [RegisterConnector, hfresh], by simp [List.lookup], ?_, by simp⟩
    intro n hn
    have hb : (n == c.name) = false := beq_eq_false_iff_ne.mpr hn
    simp [List.lookup, hb]

theorem register_duplicate_fatal_witness :
    (RegisterDB [("kafka", ⟨"kafka"⟩)] ⟨"kafka"⟩
        = Except.error ("store " ++ "kafka" ++ " is already registered")) ∧
    (RegisterDB [] ⟨"tikv"⟩ = Except.ok [("tikv", ⟨"tikv"⟩)]) ∧
    (RegisterConnector [("kafka", ⟨"kafka"⟩)] ⟨"kafka"⟩
        = Except.error ("store " ++ "kafka" ++ " is already registered")) ∧
    (RegisterConnector [] ⟨"kafka"⟩ = Except.ok [("kafka", ⟨"kafka"⟩)]) :=
  ⟨(register_duplicate_fatal [("kafka", ⟨"kafka"⟩)] ⟨"kafka"⟩ [] ⟨"x"⟩).1 (by decide),
   ((register_duplicate_fatal [] ⟨"tikv"⟩ [] ⟨"x"⟩).2.1 (by decide)).1,
   ((register_duplicate_fatal [] ⟨"x"⟩ [("kafka", ⟨"kafka"⟩)] ⟨"kafka"⟩).2.2.1 (by decide)),
   (((register_duplicate_fatal [] ⟨"x"⟩ [] ⟨"kafka"⟩).2.2.2 (by decide)).1)⟩

/-- C9: `Close` performs the connector close step (whose interface returns no
error to the caller, failures being logged inside the connector) strictly
before the backend close step; the backend's close error is returned to the
caller; either step is skipped when its slot is unset, and with the backend
slot unset the result is nil. -/
theorem close_connector_before_backend (db : DB) (conn : ConnectorIface) :
    Store.close ⟨some db, some conn⟩
        = ([CloseAction.closeConnector, CloseAction.closeDB], db.close) ∧
    Store.close ⟨some db, none⟩ = ([CloseAction.closeDB], db.close) ∧
    Store.close ⟨none, some conn⟩ = ([CloseAction.closeConnector], none) ∧
    Store.close ⟨none, none⟩ = ([], none) :=
  ⟨rfl, rfl, rfl, rfl⟩

/-- C10: with the backend slot unset, `UnsafeDelete` dereferences the nil
backend handle and panics (`none`), while `Get`, `List`, `BatchDelete`,
`CheckAndPut` and `Health` each return a not-available error in that state;
with the slot set, `UnsafeDelete` completes (backend errors are only
logged). -/
theorem unsafeDelete_only_unchecked (conn : Option ConnectorIface)
    (decode : Bytes → Except Err Log) (key entry start stop : Bytes)
    (limit : Int) (opt : ReadOption) (check : CheckFunc) :
    Store.unsafeDelete ⟨none, conn⟩ start stop = none ∧
    Store.get ⟨none, conn⟩ key opt = (NoValue, some Err.notExists) ∧
    Store.list ⟨none, conn⟩ start stop limit opt = ([], some Err.notExists) ∧
    Store.batchDelete ⟨none, conn⟩ start stop limit = ([], 0, some Err.notExists) ∧
    Store.checkAndPut ⟨none, conn⟩ decode key entry check = (some Err.notExists, []) ∧
    Store.health ⟨none, conn⟩ = some Err.databaseNotExists ∧
    (∀ db : DB, (Store.unsafeDelete ⟨some db, conn⟩ start stop).isSome = true) :=
  ⟨rfl, rfl, rfl, rfl, rfl, rfl, fun _ => rfl⟩

end TiRest
